import Mathlib

/-!
  Verification of the action execution engine in src/actions.py of
  FlareSolverrInteractive.

  The engine is embedded shallowly.  Effectful Python code is modelled in
  the monad M below: a computation takes the abstract driver state and a
  trace of driver interactions performed so far, and returns either a value
  or a raised exception, together with the updated state and trace.  The
  browser driver is an abstract capability record (Driver), so theorems
  quantify over every driver behaviour.  Machine details that no property
  depends on (wall-clock layout, randomized jitter amounts) are supplied by
  the driver as oracles; the control flow, the exception discipline, the
  messages and the produced records follow the Python source line by line.
-/

namespace ActionsPy

/-- Exceptions, tagged by the Python exception class relevant to control
flow: TimeoutException is caught specially by the element getter, every
other class only matters through its message. -/
inductive Exn where
  | timeout (m : String)
  | noSuchElement (m : String)
  | other (m : String)
deriving DecidableEq, Repr

/-- The str() of the exception, as captured by the dispatcher. -/
def Exn.msg : Exn → String
  | Exn.timeout m => m
  | Exn.noSuchElement m => m
  | Exn.other m => m

/-- Selector addressing scheme, per the startswith classification used by
every resolver in the source. -/
inductive Scheme where
  | xpath
  | css
deriving DecidableEq, Repr

/-- One recorded driver interaction.  The trace of these is instrumentation
for the claims that certain code paths perform no driver interaction. -/
inductive Call where
  | findElements (sch : Scheme) (sel : String)
  | findElement (sch : Scheme) (sel : String)
  | waitPresence (sch : Scheme) (sel : String) (t : Nat)
  | waitVisible (sch : Scheme) (sel : String) (t : Nat)
  | waitInvisible (sch : Scheme) (sel : String) (t : Nat)
  | waitPageLoad (t : Nat)
  | waitDomLoaded (t : Nat)
  | waitUrlChange (t : Nat)
  | isDisplayed
  | textOf
  | clearElem
  | currentUrl
  | execScript (script : String)
  | scrollIntoView
  | performClick
  | performType
  | performPressEnter
  | performPressEnterActive
  | sleep
deriving DecidableEq, Repr

/-- The effect monad of the embedding: driver state and interaction trace
in, exception-or-value with final state and trace out. -/
def M (σ : Type) (α : Type) : Type :=
  σ → List Call → Except Exn α × σ × List Call

/-- Return a pure value. -/
def mret {σ α : Type} (a : α) : M σ α := fun s tr => (Except.ok a, s, tr)

/-- Sequence two computations; a raised exception short-circuits. -/
def mbind {σ α β : Type} (x : M σ α) (f : α → M σ β) : M σ β := fun s tr =>
  match x s tr with
  | (Except.ok a, s', tr') => f a s' tr'
  | (Except.error e, s', tr') => (Except.error e, s', tr')

/-- Raise an exception. -/
def mthrow {σ α : Type} (e : Exn) : M σ α := fun s tr => (Except.error e, s, tr)

/-- Python try/except Exception: run the body, on any exception run the
handler on it. -/
def mtry {σ α : Type} (x : M σ α) (h : Exn → M σ α) : M σ α := fun s tr =>
  match x s tr with
  | (Except.ok a, s', tr') => (Except.ok a, s', tr')
  | (Except.error e, s', tr') => h e s' tr'

/-- Lift a pure exception-or-value (used for re.search, whose outcome does
not depend on driver state and is not a driver interaction). -/
def mlift {σ α : Type} (x : Except Exn α) : M σ α := fun s tr => (x, s, tr)

/-- Value returned by driver.execute_script: its repr (for messages) and
its Python truthiness (for bool()). -/
structure ScriptVal where
  repr : String
  truthy : Bool
deriving DecidableEq, Repr

/-- Abstract browser driver capability surface, with an abstract state σ
and an abstract element handle type ε.  Each capability may raise.  now is
the millisecond clock read by time.time(); sleep covers time.sleep and the
randomized humanization pauses; randInt covers random.randint. -/
structure Driver (σ ε : Type) where
  findElements : Scheme → String → σ → Except Exn Nat × σ
  findElement : Scheme → String → σ → Except Exn ε × σ
  waitPresence : Scheme → String → Nat → σ → Except Exn ε × σ
  waitVisible : Scheme → String → Nat → σ → Except Exn Unit × σ
  waitInvisible : Scheme → String → Nat → σ → Except Exn Unit × σ
  waitPageLoad : Nat → σ → Except Exn Unit × σ
  waitDomLoaded : Nat → σ → Except Exn Unit × σ
  waitUrlChange : String → Nat → σ → Except Exn Unit × σ
  isDisplayed : ε → σ → Except Exn Bool × σ
  textOf : ε → σ → Except Exn String × σ
  clearElem : ε → σ → Except Exn Unit × σ
  currentUrl : σ → Except Exn String × σ
  execScript : String → σ → Except Exn ScriptVal × σ
  scrollIntoView : ε → σ → Except Exn Unit × σ
  moveClick : ε → Int → Int → σ → Except Exn Unit × σ
  performType : ε → String → σ → Except Exn Unit × σ
  performPressEnter : ε → σ → Except Exn Unit × σ
  performPressEnterActive : σ → Except Exn Unit × σ
  sleep : σ → σ
  now : σ → Nat
  randInt : Int → Int → σ → Int × σ
  reSearch : String → String → Except Exn Bool

variable {σ ε : Type}

/-- Run a driver capability, recording it in the interaction trace (the
call is recorded whether or not it raises: it happened). -/
def callD {α : Type} (c : Call) (f : σ → Except Exn α × σ) : M σ α := fun s tr =>
  let p := f s
  (p.1, p.2, tr ++ [c])

def callFindElements (d : Driver σ ε) (sch : Scheme) (sel : String) : M σ Nat :=
  callD (Call.findElements sch sel) (d.findElements sch sel)

def callFindElement (d : Driver σ ε) (sch : Scheme) (sel : String) : M σ ε :=
  callD (Call.findElement sch sel) (d.findElement sch sel)

def callWaitPresence (d : Driver σ ε) (sch : Scheme) (sel : String) (t : Nat) : M σ ε :=
  callD (Call.waitPresence sch sel t) (d.waitPresence sch sel t)

def callWaitVisible (d : Driver σ ε) (sch : Scheme) (sel : String) (t : Nat) : M σ Unit :=
  callD (Call.waitVisible sch sel t) (d.waitVisible sch sel t)

def callWaitInvisible (d : Driver σ ε) (sch : Scheme) (sel : String) (t : Nat) : M σ Unit :=
  callD (Call.waitInvisible sch sel t) (d.waitInvisible sch sel t)

def callWaitPageLoad (d : Driver σ ε) (t : Nat) : M σ Unit :=
  callD (Call.waitPageLoad t) (d.waitPageLoad t)

def callWaitDomLoaded (d : Driver σ ε) (t : Nat) : M σ Unit :=
  callD (Call.waitDomLoaded t) (d.waitDomLoaded t)

def callWaitUrlChange (d : Driver σ ε) (url : String) (t : Nat) : M σ Unit :=
  callD (Call.waitUrlChange t) (d.waitUrlChange url t)

def callIsDisplayed (d : Driver σ ε) (e : ε) : M σ Bool :=
  callD Call.isDisplayed (d.isDisplayed e)

def callTextOf (d : Driver σ ε) (e : ε) : M σ String :=
  callD Call.textOf (d.textOf e)

def callClearElem (d : Driver σ ε) (e : ε) : M σ Unit :=
  callD Call.clearElem (d.clearElem e)

def callCurrentUrl (d : Driver σ ε) : M σ String :=
  callD Call.currentUrl d.currentUrl

def callExecScript (d : Driver σ ε) (script : String) : M σ ScriptVal :=
  callD (Call.execScript script) (d.execScript script)

def callScrollIntoView (d : Driver σ ε) (e : ε) : M σ Unit :=
  callD Call.scrollIntoView (d.scrollIntoView e)

def callMoveClick (d : Driver σ ε) (e : ε) (dx dy : Int) : M σ Unit :=
  callD Call.performClick (d.moveClick e dx dy)

def callPerformType (d : Driver σ ε) (e : ε) (v : String) : M σ Unit :=
  callD Call.performType (d.performType e v)

def callPerformPressEnter (d : Driver σ ε) (e : ε) : M σ Unit :=
  callD Call.performPressEnter (d.performPressEnter e)

def callPerformPressEnterActive (d : Driver σ ε) : M σ Unit :=
  callD Call.performPressEnterActive d.performPressEnterActive

/-- time.sleep and the random.uniform pauses: advances the world, recorded
in the trace, never raises. -/
def sleepM (d : Driver σ ε) : M σ Unit := fun s tr =>
  (Except.ok (), d.sleep s, tr ++ [Call.sleep])

/-- time.time() read (not a driver interaction; not traced). -/
def getNow (d : Driver σ ε) : M σ Nat := fun s tr => (Except.ok (d.now s), s, tr)

/-- random.randint draw (not traced). -/
def randIntM (d : Driver σ ε) (lo hi : Int) : M σ Int := fun s tr =>
  let p := d.randInt lo hi s
  (Except.ok p.1, p.2, tr)

/-- Python str.startswith, modelled on the character list so that it
evaluates on literals. -/
def startsWithPy (s p : String) : Bool := p.data.isPrefixOf s.data

/-- Selector classification of src/actions.py: a selector starting with
two slashes or an opening parenthesis followed by two slashes is XPath,
everything else CSS. -/
def classify (sel : String) : Scheme :=
  if startsWithPy sel "//" || startsWithPy sel "(//" then Scheme.xpath else Scheme.css

/-- The ifTextMatches sub-dictionary: selector and pattern. -/
structure TextMatches where
  selector : String
  pattern : String
deriving DecidableEq, Repr

/-- A condition dictionary, one optional field per recognized key of
the evaluator. -/
structure Cond where
  ifExists : Option String
  ifNotExists : Option String
  ifVisible : Option String
  ifHidden : Option String
  ifTextMatches : Option TextMatches
  ifUrlMatches : Option String
  ifCustom : Option String
deriving DecidableEq, Repr

/-- The condition dictionary with none of the recognized keys. -/
def emptyCond : Cond := ⟨none, none, none, none, none, none, none⟩

/-- The wait-for dictionary consumed by the wait action. -/
structure WaitFor where
  time : Option Nat
  selector : Option String
  state : Option String
  timeout : Option Nat
  event : Option String
  urlChange : Bool
deriving DecidableEq, Repr

/-- The wait-for dictionary with no keys (the .get default). -/
def emptyWaitFor : WaitFor := ⟨none, none, none, none, none, false⟩

/-- A single declarative action step.  waitFor is the key named for in the
source (for is reserved in Lean). -/
structure Action where
  type : String
  selector : Option String
  value : Option String
  script : Option String
  waitFor : Option WaitFor
  timeout : Option Nat
  waitAfter : Option Nat
  clear : Option Bool
  condition : Option Cond
  continueOnError : Option Bool
deriving DecidableEq, Repr

/-- An action group: a steps list, an optional group condition and an
optional continue-on-error default. -/
structure Group where
  condition : Option Cond
  steps : List Action
  continueOnError : Option Bool
deriving DecidableEq, Repr

/-- A top-level entry of the input list: a dictionary with a steps key is
a group, anything else a single action. -/
inductive Entry where
  | single (a : Action)
  | group (g : Group)
deriving DecidableEq, Repr

/-- Result of one executed-or-skipped step, mirroring class ActionResult. -/
structure ActionResult where
  index : Nat
  type : String
  status : String
  duration : Nat
  message : String
  selector : Option String
  error : Option String
deriving DecidableEq, Repr

/-- The aggregate report, mirroring class ActionExecutionResults. -/
structure ActionExecutionResults where
  details : List ActionResult
  executed : Nat
  successful : Nat
  failed : Nat
  skipped : Nat
deriving DecidableEq, Repr

/-- A fresh report, as built by the constructor. -/
def emptyResults : ActionExecutionResults := ⟨[], 0, 0, 0, 0⟩

/-- add_result: append to details and bump the counter matching the
status string (an unrecognized status is appended but counted nowhere). -/
def addResult (acc : ActionExecutionResults) (r : ActionResult) : ActionExecutionResults :=
  let acc' := { acc with details := acc.details ++ [r] }
  if r.status = "success" then
    { acc' with successful := acc'.successful + 1, executed := acc'.executed + 1 }
  else if r.status = "failed" then
    { acc' with failed := acc'.failed + 1, executed := acc'.executed + 1 }
  else if r.status = "skipped" then
    { acc' with skipped := acc'.skipped + 1 }
  else acc'

/-- Fold a list of results into the report in order, one add_result each. -/
def foldAdd (acc : ActionExecutionResults) (rs : List ActionResult) : ActionExecutionResults :=
  rs.foldl addResult acc

/-- The helper _element_exists: classify, find_elements, nonempty; any
exception yields false. -/
def elementExistsQ (d : Driver σ ε) (sel : String) : M σ Bool :=
  mtry
    (mbind (callFindElements d (classify sel) sel) (fun n => mret (decide (0 < n))))
    (fun _ => mret false)

/-- The helper _element_visible: classify, find_element, is_displayed; any
exception yields false. -/
def elementVisibleQ (d : Driver σ ε) (sel : String) : M σ Bool :=
  mtry
    (mbind (callFindElement d (classify sel) sel) (fun e => callIsDisplayed d e))
    (fun _ => mret false)

/-- The helper _get_element: wait for presence; a TimeoutException is
converted into NoSuchElementException, other exceptions propagate. -/
def getElement (d : Driver σ ε) (sel : String) (timeout : Nat) : M σ ε := fun s tr =>
  match callWaitPresence d (classify sel) sel timeout s tr with
  | (Except.error (Exn.timeout _), s', tr') =>
      (Except.error (Exn.noSuchElement ("Element not found: " ++ sel)), s', tr')
  | other => other

/-- The try-body of the ifTextMatches branch: locate with a 2000ms
timeout, read the text, regex-search it. -/
def textMatchesBody (d : Driver σ ε) (sel pat : String) : M σ Bool :=
  mbind (getElement d sel 2000) (fun e =>
    mbind (callTextOf d e) (fun t =>
      mlift (d.reSearch pat t)))

/-- The try-body of the ifCustom branch: execute the script and take its
truthiness. -/
def customBody (d : Driver σ ε) (script : String) : M σ Bool :=
  mbind (callExecScript d script) (fun v => mret v.truthy)

/-- _evaluate_condition: no condition is true; otherwise the recognized
keys are tried in source order; ifTextMatches and ifCustom swallow any
exception into false; a dictionary with no recognized key falls through
to true. -/
def evaluateCondition (d : Driver σ ε) : Option Cond → M σ Bool
  | none => mret true
  | some c =>
    match c.ifExists with
    | some sel => elementExistsQ d sel
    | none =>
      match c.ifNotExists with
      | some sel => mbind (elementExistsQ d sel) (fun b => mret (!b))
      | none =>
        match c.ifVisible with
        | some sel => elementVisibleQ d sel
        | none =>
          match c.ifHidden with
          | some sel => mbind (elementVisibleQ d sel) (fun b => mret (!b))
          | none =>
            match c.ifTextMatches with
            | some tm => mtry (textMatchesBody d tm.selector tm.pattern) (fun _ => mret false)
            | none =>
              match c.ifUrlMatches with
              | some pat =>
                  mbind (callCurrentUrl d) (fun url => mlift (d.reSearch pat url))
              | none =>
                match c.ifCustom with
                | some script => mtry (customBody d script) (fun _ => mret false)
                | none => mret true

/-- The urlChange check of _execute_wait_action and the final default
short sleep. -/
def waitUrlPart (d : Driver σ ε) (wf : WaitFor) : M σ String :=
  if wf.urlChange then
    mbind (callCurrentUrl d) (fun url =>
      mbind (callWaitUrlChange d url (wf.timeout.getD 10000)) (fun _ =>
        mret ("Waited for URL change from " ++ url)))
  else
    mbind (sleepM d) (fun _ => mret "Default wait executed")

/-- The tail of _execute_wait_action after the time and selector checks:
event-based waits, falling through to the urlChange check. -/
def waitEventPart (d : Driver σ ε) (wf : WaitFor) : M σ String :=
  match wf.event with
  | some ev =>
      if ev = "load" then
        mbind (callWaitPageLoad d (wf.timeout.getD 30000)) (fun _ =>
          mret "Waited for page load")
      else if ev = "DOMContentLoaded" then
        mbind (callWaitDomLoaded d (wf.timeout.getD 30000)) (fun _ =>
          mret "Waited for DOM content loaded")
      else waitUrlPart d wf
  | none => waitUrlPart d wf

/-- The selector-state part of _execute_wait_action; an unrecognized state
string falls through to the event part, as in the source. -/
def waitSelectorPart (d : Driver σ ε) (wf : WaitFor) : M σ String :=
  match wf.selector with
  | some sel =>
      let state := wf.state.getD "visible"
      let timeout := wf.timeout.getD 10000
      if state = "visible" then
        mbind (callWaitVisible d (classify sel) sel timeout) (fun _ =>
          mret ("Waited for element " ++ sel ++ " to be visible"))
      else if state = "hidden" then
        mbind (callWaitInvisible d (classify sel) sel timeout) (fun _ =>
          mret ("Waited for element " ++ sel ++ " to be hidden"))
      else if state = "present" then
        mbind (getElement d sel timeout) (fun _ =>
          mret ("Waited for element " ++ sel ++ " to be present"))
      else waitEventPart d wf
  | none => waitEventPart d wf

/-- _execute_wait_action: time wait, then element-state waits, then event
waits, then urlChange, then the default half-second sleep. -/
def executeWaitAction (d : Driver σ ε) (a : Action) : M σ String :=
  let wf := a.waitFor.getD emptyWaitFor
  match wf.time with
  | some t => mbind (sleepM d) (fun _ => mret ("Waited " ++ toString t ++ "ms"))
  | none => waitSelectorPart d wf

/-- _execute_click_action: resolve, scroll into view, settle pause, then a
move-and-click with random pixel offsets. -/
def executeClickAction (d : Driver σ ε) (a : Action) : M σ String :=
  match a.selector with
  | none => mthrow (Exn.other "KeyError: selector")
  | some sel =>
      mbind (getElement d sel (a.timeout.getD 10000)) (fun e =>
        mbind (callScrollIntoView d e) (fun _ =>
          mbind (sleepM d) (fun _ =>
            mbind (randIntM d (-5) 5) (fun dx =>
              mbind (randIntM d (-5) 5) (fun dy =>
                mbind (callMoveClick d e dx dy) (fun _ =>
                  mret ("Clicked element " ++ sel)))))))

/-- _execute_type_action: resolve, scroll, settle, optionally clear, then
perform the per-character typing chain. -/
def executeTypeAction (d : Driver σ ε) (a : Action) : M σ String :=
  match a.selector with
  | none => mthrow (Exn.other "KeyError: selector")
  | some sel =>
      match a.value with
      | none => mthrow (Exn.other "KeyError: value")
      | some v =>
          mbind (getElement d sel (a.timeout.getD 10000)) (fun e =>
            mbind (callScrollIntoView d e) (fun _ =>
              mbind (sleepM d) (fun _ =>
                mbind
                  (if a.clear.getD true then
                    mbind (callClearElem d e) (fun _ => sleepM d)
                  else mret ())
                  (fun _ =>
                    mbind (callPerformType d e v) (fun _ =>
                      mret ("Typed into " ++ sel))))))

/-- _execute_execute_script_action: run the script and report its value. -/
def executeExecuteScriptAction (d : Driver σ ε) (a : Action) : M σ String :=
  match a.script with
  | none => mthrow (Exn.other "KeyError: script")
  | some sc =>
      mbind (callExecScript d sc) (fun v =>
        mret ("Executed script, result: " ++ v.repr))

/-- _execute_press_enter_action: with a selector, resolve, scroll, settle
and send Enter on it; without, send Enter to the active element. -/
def executePressEnterAction (d : Driver σ ε) (a : Action) : M σ String :=
  match a.selector with
  | some sel =>
      mbind (getElement d sel (a.timeout.getD 10000)) (fun e =>
        mbind (callScrollIntoView d e) (fun _ =>
          mbind (sleepM d) (fun _ =>
            mbind (callPerformPressEnter d e) (fun _ =>
              mret ("Pressed Enter on " ++ sel)))))
  | none =>
      mbind (callPerformPressEnterActive d) (fun _ =>
        mret "Pressed Enter on active element")

/-- The if/elif dispatch on the action type string inside
_execute_single_action; an unrecognized type raises ValueError. -/
def dispatchAction (d : Driver σ ε) (a : Action) : M σ String :=
  if a.type = "wait" then executeWaitAction d a
  else if a.type = "click" then executeClickAction d a
  else if a.type = "type" then executeTypeAction d a
  else if a.type = "press_enter" then executePressEnterAction d a
  else if a.type = "execute_script" then executeExecuteScriptAction d a
  else mthrow (Exn.other ("Unknown action type: " ++ a.type))

/-- The waitAfter post-delay: sleep when the configured value is
positive. -/
def waitAfterM (d : Driver σ ε) (a : Action) : M σ Unit :=
  if 0 < a.waitAfter.getD 0 then sleepM d else mret ()

/-- _execute_single_action: record the start time, then inside the
try/except evaluate the condition (false yields a skipped result), run the
dispatched executor and the waitAfter delay (yielding a success result),
and convert any raised exception into a failed result carrying the
captured error text and the elapsed duration. -/
def executeSingleAction (d : Driver σ ε) (a : Action) (idx : Nat) : M σ ActionResult :=
  fun s tr =>
    let start := d.now s
    (mtry
      (mbind (evaluateCondition d a.condition) (fun b =>
        if b then
          mbind (dispatchAction d a) (fun msg =>
            mbind (waitAfterM d a) (fun _ =>
              mbind (getNow d) (fun tEnd =>
                mret (ActionResult.mk idx a.type "success" (tEnd - start)
                  msg a.selector none))))
        else
          mbind (getNow d) (fun tEnd =>
            mret (ActionResult.mk idx a.type "skipped" (tEnd - start)
              ("Condition not met for " ++ a.type ++ " action") a.selector none))))
      (fun e =>
        mbind (getNow d) (fun tEnd =>
          mret (ActionResult.mk idx a.type "failed" (tEnd - start)
            ("Action failed: " ++ e.msg) a.selector (some e.msg)))))
      s tr

/-- The group-condition-false branch of _execute_action_group: one skipped
record per declared step, indices sequential from the base, duration 0. -/
def groupSkipResults (base : Nat) : Nat → List Action → List ActionResult
  | _, [] => []
  | i, step :: rest =>
      ActionResult.mk (base + i) step.type "skipped" 0 "Group condition not met"
        step.selector none :: groupSkipResults base (i + 1) rest

/-- The propagation loop of _execute_action_group: one skipped record per
untried remaining step after a stopping failure. -/
def skipRemaining (base : Nat) : Nat → List Action → List ActionResult
  | _, [] => []
  | j, step :: rest =>
      ActionResult.mk (base + j) step.type "skipped" 0 "Skipped due to previous failure"
        step.selector none :: skipRemaining base (j + 1) rest

/-- The step loop of _execute_action_group: execute each step in order;
after a failed step whose effective continue-on-error (step override, else
group default) is false, record the remaining steps as skipped and stop;
otherwise pause and continue. -/
def runGroupSteps (d : Driver σ ε) (coe : Bool) (base : Nat) :
    Nat → List Action → M σ (List ActionResult)
  | _, [] => mret []
  | i, step :: rest =>
      mbind (executeSingleAction d step (base + i)) (fun r =>
        if r.status = "failed" ∧ step.continueOnError.getD coe = false then
          mret (r :: skipRemaining base (i + 1) rest)
        else
          mbind (sleepM d) (fun _ =>
            mbind (runGroupSteps d coe base (i + 1) rest) (fun rs =>
              mret (r :: rs))))

/-- The main path of _execute_action_group: run the step loop and return
the results with the declared step count. -/
def execGroupMain (d : Driver σ ε) (g : Group) (base : Nat) :
    M σ (List ActionResult × Nat) :=
  mbind (runGroupSteps d (g.continueOnError.getD false) base 0 g.steps) (fun rs =>
    mret (rs, g.steps.length))

/-- _execute_action_group: when a group condition is present and evaluates
false, skip every step wholesale; otherwise run the step loop. -/
def executeActionGroup (d : Driver σ ε) (g : Group) (base : Nat) :
    M σ (List ActionResult × Nat) :=
  match g.condition with
  | some c =>
      mbind (evaluateCondition d (some c)) (fun b =>
        match b with
        | true => execGroupMain d g base
        | false => mret (groupSkipResults base 0 g.steps, g.steps.length))
  | none => execGroupMain d g base

/-- The loop of execute_actions: groups are delegated and always continue;
a single action is executed, and when it failed with its own
continue-on-error flag (default false) unset the loop stops with no record
for the untried entries; otherwise pause and continue. -/
def execActionsLoop (d : Driver σ ε) :
    List Entry → Nat → ActionExecutionResults → M σ ActionExecutionResults
  | [], _, acc => mret acc
  | Entry.group g :: rest, idx, acc =>
      mbind (executeActionGroup d g idx) (fun p =>
        execActionsLoop d rest (idx + p.2) (foldAdd acc p.1))
  | Entry.single a :: rest, idx, acc =>
      mbind (executeSingleAction d a idx) (fun r =>
        if r.status = "failed" ∧ a.continueOnError.getD false = false then
          mret (addResult acc r)
        else
          mbind (sleepM d) (fun _ =>
            execActionsLoop d rest (idx + 1) (addResult acc r)))

/-- execute_actions: run the loop from global index 0 with a fresh
report. -/
def executeActions (d : Driver σ ε) (entries : List Entry) : M σ ActionExecutionResults :=
  execActionsLoop d entries 0 emptyResults

/-- Total number of declared steps, flattening groups. -/
def totalDeclared : List Entry → Nat
  | [] => 0
  | Entry.single _ :: rest => 1 + totalDeclared rest
  | Entry.group g :: rest => g.steps.length + totalDeclared rest

/-- Number of recorded results carrying a given status string. -/
def countStatus (st : String) (l : List ActionResult) : Nat :=
  (l.filter (fun r => r.status = st)).length

/-- The report counters are exactly the status counts of the ordered
details, and executed is the sum of successful and failed. -/
def countersOk (acc : ActionExecutionResults) : Prop :=
  acc.successful = countStatus "success" acc.details ∧
  acc.failed = countStatus "failed" acc.details ∧
  acc.skipped = countStatus "skipped" acc.details ∧
  acc.executed = acc.successful + acc.failed

/-- A concrete deterministic driver over trivial state and element types:
lookups find nothing (presence waits time out, single lookups raise),
scripts raise, the clock stands still.  Used to instantiate the
universally quantified theorems on concrete runs. -/
def noneD : Driver Unit Unit where
  findElements := fun _ _ s => (Except.ok 0, s)
  findElement := fun _ _ s => (Except.error (Exn.other "no such element"), s)
  waitPresence := fun _ _ _ s => (Except.error (Exn.timeout "timed out"), s)
  waitVisible := fun _ _ _ s => (Except.error (Exn.timeout "timed out"), s)
  waitInvisible := fun _ _ _ s => (Except.error (Exn.timeout "timed out"), s)
  waitPageLoad := fun _ s => (Except.ok (), s)
  waitDomLoaded := fun _ s => (Except.ok (), s)
  waitUrlChange := fun _ _ s => (Except.error (Exn.timeout "timed out"), s)
  isDisplayed := fun _ s => (Except.ok false, s)
  textOf := fun _ s => (Except.ok "", s)
  clearElem := fun _ s => (Except.ok (), s)
  currentUrl := fun s => (Except.ok "http://start/", s)
  execScript := fun _ s => (Except.error (Exn.other "script error"), s)
  scrollIntoView := fun _ s => (Except.ok (), s)
  moveClick := fun _ _ _ s => (Except.ok (), s)
  performType := fun _ _ s => (Except.ok (), s)
  performPressEnter := fun _ s => (Except.ok (), s)
  performPressEnterActive := fun s => (Except.ok (), s)
  sleep := id
  now := fun _ => 0
  randInt := fun _ _ s => (0, s)
  reSearch := fun _ _ => Except.ok false

/-- An action with an unrecognized type: its dispatch raises ValueError,
so executing it always yields a failed result. -/
def failAct : Action :=
  ⟨"nope", none, none, none, none, none, none, none, none, none⟩

/-- The failed result produced by executing failAct under noneD. -/
def failRes (idx : Nat) : ActionResult :=
  ⟨idx, "nope", "failed", 0, "Action failed: Unknown action type: nope",
    none, some "Unknown action type: nope"⟩

/-- A condition gating on the existence of an element noneD never finds,
so it evaluates false. -/
def condX : Cond := ⟨some ".x", none, none, none, none, none, none⟩

/-- A one-step group gated by condX: under noneD the whole group is
skipped. -/
def skipGroup : Group := ⟨some condX, [failAct], none⟩

/-- A text-matches condition whose element lookup raises under noneD. -/
def cTM : Cond := ⟨none, none, none, none, some ⟨".t", "x"⟩, none, none⟩

/-- A custom-script condition whose script raises under noneD. -/
def cCustom : Cond := ⟨none, none, none, none, none, none, some "boom"⟩

/-- An ungated one-step group whose only step fails. -/
def failGroup : Group := ⟨none, [failAct], none⟩

/-! Lemma layer: characterizations of the record-building helpers, totality
of the dispatcher, and loop invariants. -/

theorem skipRemaining_length (base : Nat) :
    ∀ (l : List Action) (j : Nat), (skipRemaining base j l).length = l.length
  | [], _ => rfl
  | _ :: rest, j => by
      simp [skipRemaining, skipRemaining_length base rest (j + 1)]

theorem skipRemaining_map_index (base : Nat) :
    ∀ (l : List Action) (j : Nat),
      (skipRemaining base j l).map ActionResult.index = List.range' (base + j) l.length
  | [], _ => rfl
  | _ :: rest, j => by
      have ih := skipRemaining_map_index base rest (j + 1)
      simp only [skipRemaining, List.map_cons, List.length_cons, List.range'_succ]
      exact congrArg (List.cons (base + j)) ih

theorem skipRemaining_mem (base : Nat) :
    ∀ (l : List Action) (j : Nat) (r : ActionResult), r ∈ skipRemaining base j l →
      r.status = "skipped" ∧ r.message = "Skipped due to previous failure" ∧ r.duration = 0
  | [], _, _, h => absurd h (List.not_mem_nil _)
  | _ :: rest, j, r, h => by
      rcases List.mem_cons.mp h with h' | h'
      · subst h'; exact ⟨rfl, rfl, rfl⟩
      · exact skipRemaining_mem base rest (j + 1) r h'

theorem groupSkipResults_length (base : Nat) :
    ∀ (l : List Action) (j : Nat), (groupSkipResults base j l).length = l.length
  | [], _ => rfl
  | _ :: rest, j => by
      simp [groupSkipResults, groupSkipResults_length base rest (j + 1)]

theorem groupSkipResults_map_index (base : Nat) :
    ∀ (l : List Action) (j : Nat),
      (groupSkipResults base j l).map ActionResult.index = List.range' (base + j) l.length
  | [], _ => rfl
  | _ :: rest, j => by
      have ih := groupSkipResults_map_index base rest (j + 1)
      simp only [groupSkipResults, List.map_cons, List.length_cons, List.range'_succ]
      exact congrArg (List.cons (base + j)) ih

theorem groupSkipResults_mem (base : Nat) :
    ∀ (l : List Action) (j : Nat) (r : ActionResult), r ∈ groupSkipResults base j l →
      r.status = "skipped" ∧ r.message = "Group condition not met" ∧ r.duration = 0
  | [], _, _, h => absurd h (List.not_mem_nil _)
  | _ :: rest, j, r, h => by
      rcases List.mem_cons.mp h with h' | h'
      · subst h'; exact ⟨rfl, rfl, rfl⟩
      · exact groupSkipResults_mem base rest (j + 1) r h'

/-- The dispatcher is total: whatever the driver does, executing one step
returns a result (never an exception), carrying the given index and one of
the three statuses. -/
theorem execSingle_total (d : Driver σ ε) (a : Action) (idx : Nat) (s : σ) (tr : List Call) :
    ∃ r s' tr', executeSingleAction d a idx s tr = (Except.ok r, s', tr') ∧ r.index = idx ∧
      (r.status = "success" ∨ r.status = "failed" ∨ r.status = "skipped") := by
  unfold executeSingleAction mtry mbind
  rcases hc : evaluateCondition d a.condition s tr with ⟨e1, s1, tr1⟩
  cases e1 with
  | error e =>
      exact ⟨ActionResult.mk idx a.type "failed" (d.now s1 - d.now s)
        ("Action failed: " ++ Exn.msg e) a.selector (some (Exn.msg e)), s1, tr1,
        by simp [hc, getNow, mret], rfl, Or.inr (Or.inl rfl)⟩
  | ok b =>
      cases b with
      | false =>
          exact ⟨ActionResult.mk idx a.type "skipped" (d.now s1 - d.now s)
            ("Condition not met for " ++ a.type ++ " action") a.selector none, s1, tr1,
            by simp [hc, getNow, mret], rfl, Or.inr (Or.inr rfl)⟩
      | true =>
          rcases hd : dispatchAction d a s1 tr1 with ⟨e2, s2, tr2⟩
          cases e2 with
          | error e =>
              exact ⟨ActionResult.mk idx a.type "failed" (d.now s2 - d.now s)
                ("Action failed: " ++ Exn.msg e) a.selector (some (Exn.msg e)), s2, tr2,
                by simp [hc, hd, getNow, mret], rfl, Or.inr (Or.inl rfl)⟩
          | ok msg =>
              rcases hw : waitAfterM d a s2 tr2 with ⟨e3, s3, tr3⟩
              cases e3 with
              | error e =>
                  exact ⟨ActionResult.mk idx a.type "failed" (d.now s3 - d.now s)
                    ("Action failed: " ++ Exn.msg e) a.selector (some (Exn.msg e)), s3, tr3,
                    by simp [hc, hd, hw, getNow, mret], rfl, Or.inr (Or.inl rfl)⟩
              | ok u =>
                  exact ⟨ActionResult.mk idx a.type "success" (d.now s3 - d.now s)
                    msg a.selector none, s3, tr3,
                    by simp [hc, hd, hw, getNow, mret], rfl, Or.inl rfl⟩

/-- When the step condition evaluates false, the dispatcher returns the
skipped result immediately, with the state and trace exactly as the
condition evaluation left them: no executor is invoked. -/
theorem execSingle_condFalse (d : Driver σ ε) (a : Action) (idx : Nat) (s s1 : σ)
    (tr tr1 : List Call)
    (hc : evaluateCondition d a.condition s tr = (Except.ok false, s1, tr1)) :
    executeSingleAction d a idx s tr =
      (Except.ok (ActionResult.mk idx a.type "skipped" (d.now s1 - d.now s)
        ("Condition not met for " ++ a.type ++ " action") a.selector none), s1, tr1) := by
  unfold executeSingleAction mtry mbind
  simp [hc, getNow, mret]

/-- When the condition passed and the dispatched executor raises, the
dispatcher converts the exception into a failed result carrying the error
text and the elapsed duration, leaving state and trace where the executor
stopped. -/
theorem execSingle_dispatchError (d : Driver σ ε) (a : Action) (idx : Nat) (s s1 s2 : σ)
    (tr tr1 tr2 : List Call) (e : Exn)
    (hc : evaluateCondition d a.condition s tr = (Except.ok true, s1, tr1))
    (hd : dispatchAction d a s1 tr1 = (Except.error e, s2, tr2)) :
    executeSingleAction d a idx s tr =
      (Except.ok (ActionResult.mk idx a.type "failed" (d.now s2 - d.now s)
        ("Action failed: " ++ Exn.msg e) a.selector (some (Exn.msg e))), s2, tr2) := by
  unfold executeSingleAction mtry mbind
  simp [hc, hd, getNow, mret]

/-- An unrecognized action type makes the dispatch raise ValueError with
no driver interaction. -/
theorem dispatch_unknown (d : Driver σ ε) (a : Action) (s : σ) (tr : List Call)
    (h1 : a.type ≠ "wait") (h2 : a.type ≠ "click") (h3 : a.type ≠ "type")
    (h4 : a.type ≠ "press_enter") (h5 : a.type ≠ "execute_script") :
    dispatchAction d a s tr =
      (Except.error (Exn.other ("Unknown action type: " ++ a.type)), s, tr) := by
  unfold dispatchAction mthrow
  simp [h1, h2, h3, h4, h5]

/-- Spec of the group step loop on the runs where it returns: as many
results as remaining declared steps, indices sequential from the current
position, statuses among the three. -/
theorem runGroupSteps_spec (d : Driver σ ε) (coe : Bool) (base : Nat) :
    ∀ (steps : List Action) (i : Nat) (s : σ) (tr : List Call)
      (rs : List ActionResult) (s' : σ) (tr' : List Call),
      runGroupSteps d coe base i steps s tr = (Except.ok rs, s', tr') →
      rs.length = steps.length ∧
      rs.map ActionResult.index = List.range' (base + i) steps.length ∧
      ∀ r ∈ rs, r.status = "success" ∨ r.status = "failed" ∨ r.status = "skipped"
  | [], i, s, tr, rs, s', tr' => by
      intro h
      simp only [runGroupSteps, mret, Prod.mk.injEq, Except.ok.injEq] at h
      obtain ⟨h1, h2, h3⟩ := h
      subst h1
      simp
  | step :: rest, i, s, tr, rs, s', tr' => by
      intro h
      obtain ⟨r, s1, tr1, hr, hidx, hst⟩ := execSingle_total d step (base + i) s tr
      simp only [runGroupSteps, mbind] at h
      rw [hr] at h
      simp only at h
      by_cases hg : r.status = "failed" ∧ step.continueOnError.getD coe = false
      · rw [if_pos hg] at h
        simp only [mret, Prod.mk.injEq, Except.ok.injEq] at h
        obtain ⟨h1, h2, h3⟩ := h
        subst h1
        refine ⟨by simp [skipRemaining_length], ?_, ?_⟩
        · simp only [List.map_cons, List.length_cons, List.range'_succ, hidx]
          exact congrArg _ (skipRemaining_map_index base rest (i + 1))
        · intro x hx
          rcases List.mem_cons.mp hx with h' | h'
          · subst h'; exact hst
          · exact Or.inr (Or.inr (skipRemaining_mem base rest (i + 1) x h').1)
      · rw [if_neg hg] at h
        simp only [mbind, sleepM] at h
        rcases hrec : runGroupSteps d coe base (i + 1) rest (d.sleep s1) (tr1 ++ [Call.sleep])
          with ⟨e2, s2, tr2⟩
        rw [hrec] at h
        cases e2 with
        | error e => simp [mret] at h
        | ok rs2 =>
            simp only [mret, Prod.mk.injEq, Except.ok.injEq] at h
            obtain ⟨h1, h2, h3⟩ := h
            subst h1
            obtain ⟨ih1, ih2, ih3⟩ :=
              runGroupSteps_spec d coe base rest (i + 1) _ _ _ _ _ hrec
            refine ⟨by simp [ih1], ?_, ?_⟩
            · simp only [List.map_cons, List.length_cons, List.range'_succ, hidx]
              exact congrArg _ ih2
            · intro x hx
              rcases List.mem_cons.mp hx with h' | h'
              · subst h'; exact hst
              · exact ih3 x h'

/-- Spec of the whole group executor on the runs where it returns: the
consumed step count is the declared length, and the results cover exactly
the declared steps with sequential indices. -/
theorem executeActionGroup_spec (d : Driver σ ε) (g : Group) (base : Nat) (s : σ)
    (tr : List Call) (rs : List ActionResult) (n : Nat) (s' : σ) (tr' : List Call)
    (h : executeActionGroup d g base s tr = (Except.ok (rs, n), s', tr')) :
    n = g.steps.length ∧ rs.length = g.steps.length ∧
    rs.map ActionResult.index = List.range' base g.steps.length ∧
    ∀ r ∈ rs, r.status = "success" ∨ r.status = "failed" ∨ r.status = "skipped" := by
  have main : ∀ s0 tr0, execGroupMain d g base s0 tr0 = (Except.ok (rs, n), s', tr') →
      n = g.steps.length ∧ rs.length = g.steps.length ∧
      rs.map ActionResult.index = List.range' base g.steps.length ∧
      ∀ r ∈ rs, r.status = "success" ∨ r.status = "failed" ∨ r.status = "skipped" := by
    intro s0 tr0 hm
    unfold execGroupMain mbind at hm
    rcases hrun : runGroupSteps d (g.continueOnError.getD false) base 0 g.steps s0 tr0
      with ⟨er, s2, tr2⟩
    rw [hrun] at hm
    cases er with
    | error e => simp [mret] at hm
    | ok rs2 =>
        simp only [mret, Prod.mk.injEq, Except.ok.injEq] at hm
        obtain ⟨⟨hrs, hn⟩, _, _⟩ := hm
        subst hrs
        obtain ⟨r1, r2, r3⟩ :=
          runGroupSteps_spec d (g.continueOnError.getD false) base g.steps 0 _ _ _ _ _ hrun
        rw [Nat.add_zero] at r2
        exact ⟨hn.symm, r1, r2, r3⟩
  cases hcond : g.condition with
  | none =>
      unfold executeActionGroup at h
      rw [hcond] at h
      exact main s tr h
  | some c =>
      unfold executeActionGroup mbind at h
      rw [hcond] at h
      dsimp only at h
      rcases hc : evaluateCondition d (some c) s tr with ⟨ec, s1, tr1⟩
      rw [hc] at h
      cases ec with
      | error e => simp at h
      | ok b =>
          cases b with
          | true =>
              dsimp only at h
              exact main s1 tr1 h
          | false =>
              dsimp only at h
              simp only [mret, Prod.mk.injEq, Except.ok.injEq] at h
              obtain ⟨⟨hrs, hn⟩, _, _⟩ := h
              subst hrs
              refine ⟨hn.symm, by simp [groupSkipResults_length], ?_, ?_⟩
              · have := groupSkipResults_map_index base g.steps 0
                rw [Nat.add_zero] at this
                exact this
              · intro x hx
                exact Or.inr (Or.inr (groupSkipResults_mem base g.steps 0 x hx).1)

theorem addResult_details (acc : ActionExecutionResults) (r : ActionResult) :
    (addResult acc r).details = acc.details ++ [r] := by
  unfold addResult
  by_cases h1 : r.status = "success"
  · simp [h1]
  · by_cases h2 : r.status = "failed"
    · simp [h1, h2]
    · by_cases h3 : r.status = "skipped"
      · simp [h1, h2, h3]
      · simp [h1, h2, h3]

theorem foldAdd_details :
    ∀ (rs : List ActionResult) (acc : ActionExecutionResults),
      (foldAdd acc rs).details = acc.details ++ rs
  | [], acc => by simp [foldAdd]
  | r :: rest, acc => by
      have ih := foldAdd_details rest (addResult acc r)
      simp only [foldAdd, List.foldl_cons] at ih ⊢
      rw [ih, addResult_details]
      simp

theorem countStatus_append (st : String) (l1 l2 : List ActionResult) :
    countStatus st (l1 ++ l2) = countStatus st l1 + countStatus st l2 := by
  simp [countStatus, List.filter_append]

theorem countStatus_singleton (st : String) (r : ActionResult) :
    countStatus st [r] = if r.status = st then 1 else 0 := by
  by_cases h : r.status = st <;> simp [countStatus, h]

theorem addResult_countersOk (acc : ActionExecutionResults) (r : ActionResult)
    (h : countersOk acc) : countersOk (addResult acc r) := by
  obtain ⟨h1, h2, h3, h4⟩ := h
  have hs : ∀ st, countStatus st (acc.details ++ [r]) =
      countStatus st acc.details + (if r.status = st then 1 else 0) := by
    intro st; rw [countStatus_append, countStatus_singleton]
  unfold countersOk addResult
  by_cases c1 : r.status = "success"
  · simp only [c1, if_pos rfl]
    refine ⟨?_, ?_, ?_, ?_⟩ <;> simp [hs, c1, h1, h2, h3, h4] <;> omega
  · by_cases c2 : r.status = "failed"
    · simp only [c1, c2, if_neg, if_pos rfl]
      refine ⟨?_, ?_, ?_, ?_⟩ <;> simp [hs, c1, c2, h1, h2, h3, h4] <;> omega
    · by_cases c3 : r.status = "skipped"
      · simp only [c1, c2, c3]
        refine ⟨?_, ?_, ?_, ?_⟩ <;> simp [hs, c1, c2, c3, h1, h2, h3, h4]
      · simp only [c1, c2, c3]
        refine ⟨?_, ?_, ?_, ?_⟩ <;> simp [hs, c1, c2, c3, h1, h2, h3, h4]

theorem foldAdd_countersOk :
    ∀ (rs : List ActionResult) (acc : ActionExecutionResults),
      countersOk acc → countersOk (foldAdd acc rs)
  | [], acc, h => h
  | r :: rest, acc, h => by
      have := foldAdd_countersOk rest (addResult acc r) (addResult_countersOk acc r h)
      simpa [foldAdd] using this

/-- Every result whose status is one of the three statuses is counted
exactly once: the three counts partition the list. -/
theorem countStatus_partition :
    ∀ (l : List ActionResult),
      (∀ r ∈ l, r.status = "success" ∨ r.status = "failed" ∨ r.status = "skipped") →
      countStatus "success" l + countStatus "failed" l + countStatus "skipped" l = l.length
  | [], _ => rfl
  | r :: rest, h => by
      have ih := countStatus_partition rest (fun x hx => h x (List.mem_cons_of_mem r hx))
      have hr := h r (List.mem_cons_self r rest)
      have hc : ∀ st, countStatus st (r :: rest) =
          (if r.status = st then 1 else 0) + countStatus st rest := by
        intro st
        have : r :: rest = [r] ++ rest := rfl
        rw [this, countStatus_append, countStatus_singleton]
      rcases hr with hr | hr | hr <;>
        simp [hc, hr, List.length_cons] <;> omega

theorem range'_split (s m n : Nat) :
    List.range' s (m + n) = List.range' s m ++ List.range' (s + m) n := by
  have h := List.range'_append s m n 1
  rw [Nat.one_mul] at h
  rw [Nat.add_comm n m] at h
  exact h.symm

/-- Main invariant of the run coordinator loop: on the runs where it
returns, the report extends the accumulator by a block of new results that
covers exactly the declared steps of a prefix of the remaining entries,
with indices sequential from the current global index and statuses among
the three. -/
theorem execLoop_spec (d : Driver σ ε) :
    ∀ (entries : List Entry) (idx : Nat) (acc : ActionExecutionResults) (s : σ)
      (tr : List Call) (rep : ActionExecutionResults) (s' : σ) (tr' : List Call),
      execActionsLoop d entries idx acc s tr = (Except.ok rep, s', tr') →
      ∃ (newrs : List ActionResult) (k : Nat),
        k ≤ entries.length ∧
        rep.details = acc.details ++ newrs ∧
        newrs.length = totalDeclared (entries.take k) ∧
        newrs.map ActionResult.index = List.range' idx newrs.length ∧
        ∀ r ∈ newrs, r.status = "success" ∨ r.status = "failed" ∨ r.status = "skipped"
  | [], idx, acc, s, tr, rep, s', tr' => by
      intro h
      simp only [execActionsLoop, mret, Prod.mk.injEq, Except.ok.injEq] at h
      obtain ⟨h1, h2, h3⟩ := h
      subst h1
      exact ⟨[], 0, by simp, by simp, rfl, rfl, by simp⟩
  | Entry.group g :: rest, idx, acc, s, tr, rep, s', tr' => by
      intro h
      simp only [execActionsLoop, mbind] at h
      rcases hg : executeActionGroup d g idx s tr with ⟨eg, sg, trg⟩
      rw [hg] at h
      cases eg with
      | error e => simp at h
      | ok p =>
          obtain ⟨rs, n⟩ := p
          dsimp only at h
          obtain ⟨gn, glen, gmap, gst⟩ := executeActionGroup_spec d g idx s tr rs n sg trg hg
          subst gn
          obtain ⟨newrs', k', hk', hdet, hlen, hmap, hst'⟩ :=
            execLoop_spec d rest (idx + g.steps.length) (foldAdd acc rs) sg trg rep s' tr' h
          refine ⟨rs ++ newrs', k' + 1, ?_, ?_, ?_, ?_, ?_⟩
          · simpa using Nat.succ_le_succ hk'
          · rw [hdet, foldAdd_details]; simp
          · simp [totalDeclared, List.take_succ_cons, glen, hlen]
          · rw [List.map_append, gmap, hmap, List.length_append, glen, range'_split]
          · intro x hx
            rcases List.mem_append.mp hx with h' | h'
            · exact gst x h'
            · exact hst' x h'
  | Entry.single a :: rest, idx, acc, s, tr, rep, s', tr' => by
      intro h
      obtain ⟨r, s1, tr1, hr, hidx, hst⟩ := execSingle_total d a idx s tr
      simp only [execActionsLoop, mbind] at h
      rw [hr] at h
      simp only at h
      by_cases hguard : r.status = "failed" ∧ a.continueOnError.getD false = false
      · rw [if_pos hguard] at h
        simp only [mret, Prod.mk.injEq, Except.ok.injEq] at h
        obtain ⟨h1, h2, h3⟩ := h
        subst h1
        refine ⟨[r], 1, by simp, by rw [addResult_details], ?_, ?_, ?_⟩
        · simp [totalDeclared]
        · simp [hidx, List.range'_succ]
        · intro x hx
          simp at hx
          subst hx
          exact hst
      · rw [if_neg hguard] at h
        simp only [mbind, sleepM] at h
        obtain ⟨newrs', k', hk', hdet, hlen, hmap, hst'⟩ :=
          execLoop_spec d rest (idx + 1) (addResult acc r) (d.sleep s1)
            (tr1 ++ [Call.sleep]) rep s' tr' h
        refine ⟨r :: newrs', k' + 1, ?_, ?_, ?_, ?_, ?_⟩
        · simpa using Nat.succ_le_succ hk'
        · rw [hdet, addResult_details]; simp
        · simp [totalDeclared, List.take_succ_cons, hlen]
          omega
        · simp only [List.map_cons, List.length_cons, List.range'_succ, hidx]
          rw [hmap]
        · intro x hx
          rcases List.mem_cons.mp hx with h' | h'
          · subst h'; exact hst
          · exact hst' x h'

/-- The counters of the report stay derived from the recorded details
through every iteration of the run loop. -/
theorem execLoop_counters (d : Driver σ ε) :
    ∀ (entries : List Entry) (idx : Nat) (acc : ActionExecutionResults) (s : σ)
      (tr : List Call) (rep : ActionExecutionResults) (s' : σ) (tr' : List Call),
      execActionsLoop d entries idx acc s tr = (Except.ok rep, s', tr') →
      countersOk acc → countersOk rep
  | [], idx, acc, s, tr, rep, s', tr' => by
      intro h hacc
      simp only [execActionsLoop, mret, Prod.mk.injEq, Except.ok.injEq] at h
      obtain ⟨h1, h2, h3⟩ := h
      subst h1
      exact hacc
  | Entry.group g :: rest, idx, acc, s, tr, rep, s', tr' => by
      intro h hacc
      simp only [execActionsLoop, mbind] at h
      rcases hg : executeActionGroup d g idx s tr with ⟨eg, sg, trg⟩
      rw [hg] at h
      cases eg with
      | error e => simp at h
      | ok p =>
          obtain ⟨rs, n⟩ := p
          dsimp only at h
          exact execLoop_counters d rest (idx + n) (foldAdd acc rs) sg trg rep s' tr' h
            (foldAdd_countersOk rs acc hacc)
  | Entry.single a :: rest, idx, acc, s, tr, rep, s', tr' => by
      intro h hacc
      obtain ⟨r, s1, tr1, hr, hidx, hst⟩ := execSingle_total d a idx s tr
      simp only [execActionsLoop, mbind] at h
      rw [hr] at h
      simp only at h
      by_cases hguard : r.status = "failed" ∧ a.continueOnError.getD false = false
      · rw [if_pos hguard] at h
        simp only [mret, Prod.mk.injEq, Except.ok.injEq] at h
        obtain ⟨h1, h2, h3⟩ := h
        subst h1
        exact addResult_countersOk acc r hacc
      · rw [if_neg hguard] at h
        simp only [mbind, sleepM] at h
        exact execLoop_counters d rest (idx + 1) (addResult acc r) (d.sleep s1)
          (tr1 ++ [Call.sleep]) rep s' tr' h (addResult_countersOk acc r hacc)

/-! Claim theorems. -/

/-- C1: inside a group whose condition gate passed, when the step at
position i returns a failed result and its effective continue-on-error
(step override, else group default, else false) is false, the group step
loop returns that result followed by one skipped record per remaining
position, whose messages mention the previous failure and whose indices
continue sequentially, with the final driver state and trace being exactly
those left by the failing step — so no further condition is evaluated and
no executor or driver interaction runs for the remaining positions; and
whenever the group executor returns, it returns exactly as many results as
declared steps with consumedStepCount equal to len(steps). -/
theorem claim1_group_failure_propagation {σ ε : Type} (d : Driver σ ε) :
    (∀ (coe : Bool) (base i : Nat) (step : Action) (rest : List Action) (s : σ)
       (tr : List Call) (r : ActionResult) (s' : σ) (tr' : List Call),
       executeSingleAction d step (base + i) s tr = (Except.ok r, s', tr') →
       r.status = "failed" →
       step.continueOnError.getD coe = false →
       runGroupSteps d coe base i (step :: rest) s tr =
         (Except.ok (r :: skipRemaining base (i + 1) rest), s', tr') ∧
       (skipRemaining base (i + 1) rest).length = rest.length ∧
       (skipRemaining base (i + 1) rest).map ActionResult.index =
         List.range' (base + i + 1) rest.length ∧
       ∀ x ∈ skipRemaining base (i + 1) rest,
         x.status = "skipped" ∧ x.message = "Skipped due to previous failure") ∧
    ∀ (g : Group) (base : Nat) (s : σ) (tr : List Call) (rs : List ActionResult)
      (n : Nat) (s' : σ) (tr' : List Call),
      executeActionGroup d g base s tr = (Except.ok (rs, n), s', tr') →
      rs.length = g.steps.length ∧ n = g.steps.length := by
  constructor
  · intro coe base i step rest s tr r s' tr' hr hfail hcoe
    refine ⟨?_, skipRemaining_length base rest (i + 1), ?_, ?_⟩
    · simp only [runGroupSteps, mbind]
      rw [hr]
      simp only
      rw [if_pos ⟨hfail, hcoe⟩]
      rfl
    · exact skipRemaining_map_index base rest (i + 1)
    · intro x hx
      obtain ⟨a, b, _⟩ := skipRemaining_mem base rest (i + 1) x hx
      exact ⟨a, b⟩
  · intro g base s tr rs n s' tr' h
    obtain ⟨gn, glen, _, _⟩ := executeActionGroup_spec d g base s tr rs n s' tr' h
    exact ⟨glen, gn⟩

/-- Witness for C1 at a concrete two-step group whose first step fails. -/
theorem claim1_witness :
    runGroupSteps noneD false 0 0 [failAct, failAct] () [] =
      (Except.ok (failRes 0 :: skipRemaining 0 1 [failAct]), (), []) ∧
    (skipRemaining 0 1 [failAct]).length = 1 ∧
    (skipRemaining 0 1 [failAct]).map ActionResult.index = List.range' 1 1 ∧
    ∀ x ∈ skipRemaining 0 1 [failAct],
      x.status = "skipped" ∧ x.message = "Skipped due to previous failure" :=
  (claim1_group_failure_propagation noneD).1 false 0 0 failAct [failAct] () []
    (failRes 0) () [] rfl rfl rfl

/-- C2: after a failed single top-level action whose own continue-on-error
flag (default false) is false, the run loop returns immediately: the
report gains only that one result (no record, not even a skip, for any
later entry), and the state and trace are exactly those left by the
failing action, so no later entry is dispatched. -/
theorem claim2_toplevel_stop {σ ε : Type} (d : Driver σ ε) :
    (∀ (a : Action) (rest : List Entry) (idx : Nat) (acc : ActionExecutionResults)
       (s : σ) (tr : List Call) (r : ActionResult) (s' : σ) (tr' : List Call),
       executeSingleAction d a idx s tr = (Except.ok r, s', tr') →
       r.status = "failed" →
       a.continueOnError.getD false = false →
       execActionsLoop d (Entry.single a :: rest) idx acc s tr =
         (Except.ok (addResult acc r), s', tr')) ∧
    (∀ (acc : ActionExecutionResults) (r : ActionResult),
       (addResult acc r).details = acc.details ++ [r]) ∧
    ∀ (entries : List Entry),
      executeActions d entries = execActionsLoop d entries 0 emptyResults := by
  refine ⟨?_, addResult_details, fun _ => rfl⟩
  intro a rest idx acc s tr r s' tr' hr hfail hcoe
  simp only [execActionsLoop, mbind]
  rw [hr]
  simp only
  rw [if_pos ⟨hfail, hcoe⟩]
  rfl

/-- Witness for C2 at a concrete run whose first top-level action fails
with another entry still pending. -/
theorem claim2_witness :
    execActionsLoop noneD [Entry.single failAct, Entry.single failAct] 0 emptyResults () [] =
      (Except.ok (addResult emptyResults (failRes 0)), (), []) :=
  (claim2_toplevel_stop noneD).1 failAct [Entry.single failAct] 0 emptyResults () []
    (failRes 0) () [] rfl rfl rfl

/-- C3 counterexample: two declared top-level single actions, the first of
which fails with continue-on-error false.  The run returns a report with
executed + skipped = 1 while the flattened declared step count is 2: the
claimed equality fails, and the untried second entry left no record. -/
theorem claim3_counterexample :
    executeActions noneD [Entry.single failAct, Entry.single failAct] () [] =
      (Except.ok (ActionExecutionResults.mk [failRes 0] 1 0 1 0), (), []) ∧
    (ActionExecutionResults.mk [failRes 0] 1 0 1 0).executed +
        (ActionExecutionResults.mk [failRes 0] 1 0 1 0).skipped ≠
      totalDeclared [Entry.single failAct, Entry.single failAct] :=
  ⟨rfl, by decide⟩

/-- C3 (amended): on every run that returns a report, executed =
successful + failed and executed + skipped equals the number of recorded
results; and the recorded results cover exactly the declared steps
(flattening groups) of a prefix of the top-level entries — entries after a
top-level stop contribute no results at all. -/
theorem claim3_amended_report_accounting {σ ε : Type} (d : Driver σ ε)
    (entries : List Entry) (s : σ) (tr : List Call) (rep : ActionExecutionResults)
    (s' : σ) (tr' : List Call)
    (h : executeActions d entries s tr = (Except.ok rep, s', tr')) :
    rep.executed = rep.successful + rep.failed ∧
    rep.executed + rep.skipped = rep.details.length ∧
    ∃ k ≤ entries.length, rep.details.length = totalDeclared (entries.take k) := by
  have h' : execActionsLoop d entries 0 emptyResults s tr = (Except.ok rep, s', tr') := h
  obtain ⟨newrs, k, hk, hdet, hlen, hmap, hst⟩ :=
    execLoop_spec d entries 0 emptyResults s tr rep s' tr' h'
  obtain ⟨c1, c2, c3, c4⟩ :=
    execLoop_counters d entries 0 emptyResults s tr rep s' tr' h' ⟨rfl, rfl, rfl, rfl⟩
  have hdet' : rep.details = newrs := by simpa [emptyResults] using hdet
  have hpart := countStatus_partition rep.details (by rw [hdet']; exact hst)
  refine ⟨c4, ?_, k, hk, by rw [hdet']; exact hlen⟩
  omega

/-- Witness for C3 (amended) at a concrete one-entry run. -/
theorem claim3_witness :
    (ActionExecutionResults.mk [failRes 0] 1 0 1 0).executed =
      (ActionExecutionResults.mk [failRes 0] 1 0 1 0).successful +
        (ActionExecutionResults.mk [failRes 0] 1 0 1 0).failed ∧
    (ActionExecutionResults.mk [failRes 0] 1 0 1 0).executed +
        (ActionExecutionResults.mk [failRes 0] 1 0 1 0).skipped =
      (ActionExecutionResults.mk [failRes 0] 1 0 1 0).details.length ∧
    ∃ k ≤ ([Entry.single failAct] : List Entry).length,
      (ActionExecutionResults.mk [failRes 0] 1 0 1 0).details.length =
        totalDeclared (([Entry.single failAct] : List Entry).take k) :=
  claim3_amended_report_accounting noneD [Entry.single failAct] () []
    (ActionExecutionResults.mk [failRes 0] 1 0 1 0) () [] rfl

/-- C4: on every run that returns, the index fields of the recorded
results in report order are exactly 0, 1, ..., len-1 — unique, contiguous
from 0, increasing in declaration order, through groups and propagated
skips alike; and whenever a group is processed, the consumed count the
coordinator adds to the global index is exactly the group's declared
len(steps). -/
theorem claim4_global_indices {σ ε : Type} (d : Driver σ ε) :
    (∀ (entries : List Entry) (s : σ) (tr : List Call) (rep : ActionExecutionResults)
       (s' : σ) (tr' : List Call),
       executeActions d entries s tr = (Except.ok rep, s', tr') →
       rep.details.map ActionResult.index = List.range rep.details.length) ∧
    ∀ (g : Group) (base : Nat) (s : σ) (tr : List Call) (rs : List ActionResult)
      (n : Nat) (s' : σ) (tr' : List Call),
      executeActionGroup d g base s tr = (Except.ok (rs, n), s', tr') →
      n = g.steps.length := by
  constructor
  · intro entries s tr rep s' tr' h
    obtain ⟨newrs, k, hk, hdet, hlen, hmap, hst⟩ :=
      execLoop_spec d entries 0 emptyResults s tr rep s' tr' h
    have hdet' : rep.details = newrs := by simpa [emptyResults] using hdet
    rw [hdet', List.range_eq_range']
    exact hmap
  · intro g base s tr rs n s' tr' h
    exact (executeActionGroup_spec d g base s tr rs n s' tr' h).1

/-- Witness for C4 at a concrete run. -/
theorem claim4_witness :
    (ActionExecutionResults.mk [failRes 0] 1 0 1 0).details.map ActionResult.index =
      List.range (ActionExecutionResults.mk [failRes 0] 1 0 1 0).details.length :=
  (claim4_global_indices noneD).1 [Entry.single failAct] () []
    (ActionExecutionResults.mk [failRes 0] 1 0 1 0) () [] rfl

/-- C5: after every sequence of add_result calls starting from a fresh
report, the counters are derived exactly from the ordered recorded
details — successful, failed and skipped are the counts of results with
the corresponding status and executed = successful + failed — and the
details list is exactly the sequence of results added, in order. -/
theorem claim5_counters_derived (rs : List ActionResult) :
    countersOk (foldAdd emptyResults rs) ∧ (foldAdd emptyResults rs).details = rs := by
  refine ⟨foldAdd_countersOk rs emptyResults ⟨rfl, rfl, rfl, rfl⟩, ?_⟩
  simpa [emptyResults] using foldAdd_details rs emptyResults

/-- C6: when a group condition is present and evaluates false, the group
executor returns exactly one skipped record per declared step, with
indices sequential from the base index and duration 0, and
consumedStepCount = len(steps); the final driver state and trace are
exactly those left by the group condition evaluation, so no per-step
condition is evaluated, no executor runs and no further driver interaction
is performed. -/
theorem claim6_group_condition_false {σ ε : Type} (d : Driver σ ε) (g : Group) (c : Cond)
    (base : Nat) (s s1 : σ) (tr tr1 : List Call)
    (hg : g.condition = some c)
    (hc : evaluateCondition d (some c) s tr = (Except.ok false, s1, tr1)) :
    executeActionGroup d g base s tr =
      (Except.ok (groupSkipResults base 0 g.steps, g.steps.length), s1, tr1) ∧
    (groupSkipResults base 0 g.steps).length = g.steps.length ∧
    (groupSkipResults base 0 g.steps).map ActionResult.index =
      List.range' base g.steps.length ∧
    ∀ x ∈ groupSkipResults base 0 g.steps,
      x.status = "skipped" ∧ x.duration = 0 ∧ x.message = "Group condition not met" := by
  refine ⟨?_, groupSkipResults_length base g.steps 0, ?_, ?_⟩
  · unfold executeActionGroup mbind
    rw [hg]
    dsimp only
    rw [hc]
    rfl
  · have h := groupSkipResults_map_index base g.steps 0
    rw [Nat.add_zero] at h
    exact h
  · intro x hx
    obtain ⟨ha, hb, hd2⟩ := groupSkipResults_mem base g.steps 0 x hx
    exact ⟨ha, hd2, hb⟩

/-- Witness for C6 at a concrete group whose ifExists condition finds no
element. -/
theorem claim6_witness :
    executeActionGroup noneD skipGroup 0 () [] =
      (Except.ok (groupSkipResults 0 0 skipGroup.steps, skipGroup.steps.length), (),
        [Call.findElements Scheme.css ".x"]) ∧
    (groupSkipResults 0 0 skipGroup.steps).length = skipGroup.steps.length ∧
    (groupSkipResults 0 0 skipGroup.steps).map ActionResult.index =
      List.range' 0 skipGroup.steps.length ∧
    ∀ x ∈ groupSkipResults 0 0 skipGroup.steps,
      x.status = "skipped" ∧ x.duration = 0 ∧ x.message = "Group condition not met" :=
  claim6_group_condition_false noneD skipGroup condX 0 () () []
    [Call.findElements Scheme.css ".x"] rfl rfl

/-- C7: the dispatcher is total — whatever the driver does, executing a
step returns a result and never propagates an exception; when the
condition passed and the dispatched executor raises, the exception is
converted at the dispatcher boundary into a failed result carrying the
captured error text and the elapsed duration; and an unrecognized action
type is a hard ValueError raised by the dispatch (never a skip), which
that same conversion turns into a failed result. -/
theorem claim7_dispatcher_error_conversion {σ ε : Type} (d : Driver σ ε) :
    (∀ (a : Action) (idx : Nat) (s : σ) (tr : List Call),
       ∃ r s' tr', executeSingleAction d a idx s tr = (Except.ok r, s', tr')) ∧
    (∀ (a : Action) (idx : Nat) (s s1 s2 : σ) (tr tr1 tr2 : List Call) (e : Exn),
       evaluateCondition d a.condition s tr = (Except.ok true, s1, tr1) →
       dispatchAction d a s1 tr1 = (Except.error e, s2, tr2) →
       executeSingleAction d a idx s tr =
         (Except.ok (ActionResult.mk idx a.type "failed" (d.now s2 - d.now s)
           ("Action failed: " ++ Exn.msg e) a.selector (some (Exn.msg e))), s2, tr2)) ∧
    ∀ (a : Action) (s : σ) (tr : List Call),
      a.type ≠ "wait" → a.type ≠ "click" → a.type ≠ "type" → a.type ≠ "press_enter" →
      a.type ≠ "execute_script" →
      dispatchAction d a s tr =
        (Except.error (Exn.other ("Unknown action type: " ++ a.type)), s, tr) := by
  refine ⟨?_, ?_, ?_⟩
  · intro a idx s tr
    obtain ⟨r, s', tr', h, _, _⟩ := execSingle_total d a idx s tr
    exact ⟨r, s', tr', h⟩
  · intro a idx s s1 s2 tr tr1 tr2 e hc hd
    exact execSingle_dispatchError d a idx s s1 s2 tr tr1 tr2 e hc hd
  · intro a s tr h1 h2 h3 h4 h5
    exact dispatch_unknown d a s tr h1 h2 h3 h4 h5

/-- Witness for C7 at a concrete unknown-typed action. -/
theorem claim7_witness :
    executeSingleAction noneD failAct 5 () [] =
      (Except.ok (ActionResult.mk 5 failAct.type "failed" (noneD.now () - noneD.now ())
        ("Action failed: " ++ Exn.msg (Exn.other "Unknown action type: nope"))
        failAct.selector (some (Exn.msg (Exn.other "Unknown action type: nope")))),
        (), []) ∧
    dispatchAction noneD failAct () [] =
      (Except.error (Exn.other ("Unknown action type: " ++ failAct.type)), (), []) :=
  ⟨(claim7_dispatcher_error_conversion noneD).2.1 failAct 5 () () () [] [] []
    (Exn.other "Unknown action type: nope") rfl rfl,
   (claim7_dispatcher_error_conversion noneD).2.2 failAct () []
    (by decide) (by decide) (by decide) (by decide) (by decide)⟩

/-- C8: when the try-body of a text-matches or custom-script predicate
raises, the condition evaluator swallows the exception and returns false
(never an exception); and a condition that evaluates false makes the
dispatcher return a skipped result, never a failed one — so a misbehaving
condition of these kinds can only cause a skip. -/
theorem claim8_condition_errors_to_false {σ ε : Type} (d : Driver σ ε) :
    (∀ (c : Cond) (tm : TextMatches) (s s1 : σ) (tr tr1 : List Call) (e : Exn),
       c.ifExists = none → c.ifNotExists = none → c.ifVisible = none →
       c.ifHidden = none → c.ifTextMatches = some tm →
       textMatchesBody d tm.selector tm.pattern s tr = (Except.error e, s1, tr1) →
       evaluateCondition d (some c) s tr = (Except.ok false, s1, tr1)) ∧
    (∀ (c : Cond) (script : String) (s s1 : σ) (tr tr1 : List Call) (e : Exn),
       c.ifExists = none → c.ifNotExists = none → c.ifVisible = none →
       c.ifHidden = none → c.ifTextMatches = none → c.ifUrlMatches = none →
       c.ifCustom = some script →
       customBody d script s tr = (Except.error e, s1, tr1) →
       evaluateCondition d (some c) s tr = (Except.ok false, s1, tr1)) ∧
    ∀ (a : Action) (idx : Nat) (s s1 : σ) (tr tr1 : List Call),
      evaluateCondition d a.condition s tr = (Except.ok false, s1, tr1) →
      executeSingleAction d a idx s tr =
        (Except.ok (ActionResult.mk idx a.type "skipped" (d.now s1 - d.now s)
          ("Condition not met for " ++ a.type ++ " action") a.selector none), s1, tr1) := by
  refine ⟨?_, ?_, ?_⟩
  · intro c tm s s1 tr tr1 e h1 h2 h3 h4 h5 htm
    obtain ⟨f1, f2, f3, f4, f5, f6, f7⟩ := c
    simp only at h1 h2 h3 h4 h5
    subst h1 h2 h3 h4 h5
    dsimp only [evaluateCondition]
    unfold mtry
    rw [htm]
    rfl
  · intro c script s s1 tr tr1 e h1 h2 h3 h4 h5 h6 h7 hcu
    obtain ⟨f1, f2, f3, f4, f5, f6, f7⟩ := c
    simp only at h1 h2 h3 h4 h5 h6 h7
    subst h1 h2 h3 h4 h5 h6 h7
    dsimp only [evaluateCondition]
    unfold mtry
    rw [hcu]
    rfl
  · intro a idx s s1 tr tr1 hc
    exact execSingle_condFalse d a idx s s1 tr tr1 hc

/-- Witness for C8: a text-matches predicate whose element lookup raises
and a custom-script predicate whose script raises both evaluate to
false. -/
theorem claim8_witness :
    evaluateCondition noneD (some cTM) () [] =
      (Except.ok false, (), [Call.waitPresence Scheme.css ".t" 2000]) ∧
    evaluateCondition noneD (some cCustom) () [] =
      (Except.ok false, (), [Call.execScript "boom"]) :=
  ⟨(claim8_condition_errors_to_false noneD).1 cTM ⟨".t", "x"⟩ () () []
    [Call.waitPresence Scheme.css ".t" 2000]
    (Exn.noSuchElement "Element not found: .t") rfl rfl rfl rfl rfl rfl,
   (claim8_condition_errors_to_false noneD).2.1 cCustom "boom" () () []
    [Call.execScript "boom"] (Exn.other "script error")
    rfl rfl rfl rfl rfl rfl rfl rfl⟩

/-- C9: an absent predicate evaluates true, and a predicate dictionary
containing none of the recognized variant keys falls through every branch
and evaluates true, performing no driver interaction in either case. -/
theorem claim9_permissive_fallback {σ ε : Type} (d : Driver σ ε) :
    (∀ (s : σ) (tr : List Call),
       evaluateCondition d none s tr = (Except.ok true, s, tr)) ∧
    ∀ (c : Cond) (s : σ) (tr : List Call), c = emptyCond →
      evaluateCondition d (some c) s tr = (Except.ok true, s, tr) := by
  constructor
  · intro s tr
    rfl
  · intro c s tr hc
    subst hc
    rfl

/-- Witness for C9 at the empty condition dictionary. -/
theorem claim9_witness :
    evaluateCondition noneD (some emptyCond) () [] = (Except.ok true, (), []) :=
  (claim9_permissive_fallback noneD).2 emptyCond () [] rfl

/-- C10: when a top-level entry is a group and the group returns, the run
loop unconditionally continues with the remaining entries — folding the
group's results into the report and advancing the index by the consumed
count — regardless of how many steps inside the group failed and of any
continue-on-error settings: the top-level stop-on-failure check applies
only to single top-level actions. -/
theorem claim10_group_never_stops_run {σ ε : Type} (d : Driver σ ε) (g : Group)
    (rest : List Entry) (idx : Nat) (acc : ActionExecutionResults) (s : σ)
    (tr : List Call) (rs : List ActionResult) (n : Nat) (s' : σ) (tr' : List Call)
    (hg : executeActionGroup d g idx s tr = (Except.ok (rs, n), s', tr')) :
    execActionsLoop d (Entry.group g :: rest) idx acc s tr =
      execActionsLoop d rest (idx + n) (foldAdd acc rs) s' tr' := by
  simp only [execActionsLoop, mbind]
  rw [hg]

/-- Witness for C10: a group whose only step fails still hands control to
the next top-level entry. -/
theorem claim10_witness :
    execActionsLoop noneD [Entry.group failGroup, Entry.single failAct] 0 emptyResults () [] =
      execActionsLoop noneD [Entry.single failAct] (0 + 1)
        (foldAdd emptyResults [failRes 0]) () [] :=
  claim10_group_never_stops_run noneD failGroup [Entry.single failAct] 0 emptyResults
    () [] [failRes 0] 1 () [] rfl

end ActionsPy
